import Mathlib

/-!
Verification of the fetch-verify-extract pipeline of pkg/maxmind/download.go
(geoip-updater). The Go source is shallowly embedded: the filesystem is an
association list from paths to file data, HTTP responses and the external
archive walker are supplied by an environment record, and every function of
the source is translated into a pure state-passing Lean function that also
records the observable effects (HTTP requests, checksum computations, file
writes) as a list of events.
-/

set_option autoImplicit false

namespace GeoipUpdater

/-- Data stored for one file on disk: its byte content (modelled as a
string) and its modification time (modelled as a natural number). -/
structure FileData where
  content : String
  modTime : Nat
deriving DecidableEq, Repr

/-- The filesystem: an association list from absolute paths to file data.
The first binding for a path is the current one. -/
abbrev FS := List (String × FileData)

/-- Look up the current data of a path, if the file exists. -/
def FS.lookup (fs : FS) (p : String) : Option FileData :=
  match fs with
  | [] => none
  | (q, w) :: rest => if p = q then some w else FS.lookup rest p

/-- Create or overwrite a file, replacing the first binding for the path
in place (or appending a new binding when the file did not exist). -/
def FS.set (fs : FS) (p : String) (v : FileData) : FS :=
  match fs with
  | [] => [(p, v)]
  | (q, w) :: rest => if p = q then (p, v) :: rest else (q, w) :: FS.set rest p v

/-- Observable effects of one run: the two HTTP GET requests of the
pipeline, checksum computations over the archive file, destination file
writes, and the warning logged when preserving a modification time fails. -/
inductive Event where
  | httpMd
  | httpArchive
  | hashArchive
  | writeDest (p : String)
  | chtimesWarn (p : String)
deriving DecidableEq, Repr

/-- Mutable world state threaded through the pipeline: the filesystem and
the trace of events so far. -/
structure St where
  files : FS
  events : List Event
deriving DecidableEq, Repr

/-- Append one event to the trace. -/
def St.emit (st : St) (e : Event) : St :=
  { st with events := st.events ++ [e] }

/-- Replace the filesystem. -/
def St.setFiles (st : St) (fs : FS) : St :=
  { st with files := fs }

/-- One entry of the archive as produced by the external walker
(archiver.File in the source): name, directory flag, byte content, size
and modification time. -/
structure Entry where
  name : String
  isDir : Bool
  content : String
  size : Nat
  modTime : Nat
deriving DecidableEq, Repr

/-- The environment of one Download run: the checksum function, the
archive decoder of the external walker, the two stubbed HTTP responses
(status code and body), the paths on which os.Create fails, the paths on
which os.Chtimes fails, and the current time used for freshly created
files.

Modelled from the spec: the checksum utility (section 4.1, the functions
checksumFromFile and checksumFromReader live in a repository file that is
not under src/) is a deterministic content digest, so it is carried as an
abstract function from content to digest string; archiver.Walk is the
external archive-walking collaborator, carried as a function decoding the
archive bytes into the entry sequence it walks. -/
structure Env where
  hash : String → String
  parseArchive : String → List Entry
  mdResp : Nat × String
  arResp : Nat × String
  createFails : List String
  chtimesFails : List String
  now : Nat

/-- The downloader object: working directory, download directory and the
filename of the edition (EditionID.Filename in the source). -/
structure Downloader where
  workDir : String
  dlDir : String
  filename : String

/-- Path of the archive file: workDir joined with the edition filename
(line 60 of the source). -/
def archivePath (d : Downloader) : String :=
  d.workDir ++ "/" ++ d.filename

/-- Path of the checksum marker sidecar: the hidden dotfile
.{filename}.md5 in the working directory (lines 66 and 115). -/
def md5Path (d : Downloader) : String :=
  d.workDir ++ "/." ++ d.filename ++ ".md5"

/-- Destination path of one archive entry: dlDir joined with the entry
name (line 218). -/
def dbPath (d : Downloader) (f : Entry) : String :=
  d.dlDir ++ "/" ++ f.name

/-- Modelled from the spec: checksumFromFile (section 4.1a, defined in a
repository file not under src/) reads the whole file and returns the
digest of its content; a missing file is an I/O error. -/
def checksumFromFile (env : Env) (fs : FS) (p : String) : Except String String :=
  match fs.lookup p with
  | some fd => .ok (env.hash fd.content)
  | none => .error ("open " ++ p ++ ": no such file")

/-- Modelled from the spec: fileExists (a repository helper not under
src/) reports whether a file is present at the path. -/
def fileExists (fs : FS) (p : String) : Bool :=
  (fs.lookup p).isSome

/-- Modelled from the spec: createFile (a repository helper not under
src/) creates or truncates the file at the path and writes the given
content; it fails on the paths the environment marks as unwritable. -/
def createFile (env : Env) (st : St) (p : String) (content : String) : Except String St :=
  if p ∈ env.createFails then .error ("create " ++ p ++ ": permission denied")
  else .ok (st.setFiles (st.files.set p ⟨content, env.now⟩))

/-- The string Go fmt produces for the verb s applied to the unread
res.Body value (an io.ReadCloser) in the error messages of lines 103 and
169: fmt renders the struct of the reader, not the bytes of the response
body, because the stream has not been read. The rendering therefore does
not depend on the body content, which is why it is a constant here. -/
def goFmtBody : String := "&\x7bhttp.body 0xc000090000\x7d"

/-- Substring predicate (decidable), used to state which strings an error
message carries. -/
abbrev strContains (s t : String) : Prop :=
  t.data <:+: s.data

/-- Scan over the reversed character list of a path: stop without a result
at a path separator, return the suffix from the final dot otherwise. The
accumulator holds the characters already passed, in original order. -/
def extFind (acc : List Char) : List Char → Option (List Char)
  | [] => none
  | c :: rest =>
    if c = '/' then none
    else if c = '.' then some (c :: acc)
    else extFind (c :: acc) rest

/-- filepath.Ext of the source: the suffix of the final path element
beginning at its final dot, or the empty string when it has no dot. -/
def Ext (name : String) : String :=
  match extFind [] name.data.reverse with
  | none => ""
  | some l => ⟨l⟩

/-- The entry filter of extractArchive lines 198-203: not a directory and
extension .csv or .mmdb. -/
def isPayload (f : Entry) : Bool :=
  !f.isDir && (Ext f.name == ".csv" || Ext f.name == ".mmdb")

/-- expectedHash (lines 80-112): issue the metadata GET; on a non-200
status fail with the message of line 103 (status code plus the fmt
rendering of the unread body reader); on 200 return the raw body as the
expected checksum. -/
def expectedHash (env : Env) (st : St) : Except String String × St :=
  let st := st.emit .httpMd
  if env.mdResp.1 ≠ 200 then
    (.error ("Received invalid status code " ++ toString env.mdResp.1 ++ ": " ++ goFmtBody), st)
  else
    (.ok env.mdResp.2, st)

/-- currentHash (lines 114-126): read the checksum marker sidecar,
returning the empty string when it does not exist. This function is
defined in the source but never called by the pipeline. -/
def currentHash (d : Downloader) (st : St) : Except String String :=
  match st.files.lookup (md5Path d) with
  | none => .ok ""
  | some fd => .ok fd.content

/-- The unconditional tail of downloadArchive (lines 143-192): issue the
archive GET, fail on non-200 with the message of line 169, stream the body
into the archive path, recompute the checksum of the freshly written file
and fail with the message of line 189 when it differs from the expected
checksum. -/
def downloadArchiveFetch (env : Env) (expHash : String) (archive : String) (st : St) :
    Except String Unit × St :=
  let st := st.emit .httpArchive
  if env.arResp.1 ≠ 200 then
    (.error ("Received invalid status code " ++ toString env.arResp.1 ++ ": " ++ goFmtBody), st)
  else if archive ∈ env.createFails then
    (.error ("Cannot create archive file"), st)
  else
    let st := st.setFiles (st.files.set archive ⟨env.arResp.2, env.now⟩)
    let st := st.emit .hashArchive
    match checksumFromFile env st.files archive with
    | .error e => (.error ("Cannot get archive checksum: " ++ e), st)
    | .ok curHash =>
      if expHash ≠ curHash then
        (.error ("MD5 of downloaded archive (" ++ curHash ++ ") does not match expected md5 ("
          ++ expHash ++ ")"), st)
      else
        (.ok (), st)

/-- downloadArchive (lines 128-193): when a file already exists at the
archive path, compute its checksum and skip the download entirely if it
equals the expected checksum; otherwise fall through to the fetch. -/
def downloadArchive (env : Env) (expHash : String) (archive : String) (st : St) :
    Except String Unit × St :=
  if fileExists st.files archive then
    let st1 := st.emit .hashArchive
    match checksumFromFile env st.files archive with
    | .error e => (.error ("Cannot get archive checksum: " ++ e), st1)
    | .ok curHash =>
      if expHash = curHash then (.ok (), st1)
      else downloadArchiveFetch env expHash archive st1
  else
    downloadArchiveFetch env expHash archive st

/-- The per-entry body of the walk closure of extractArchive (lines
197-248): skip directories and non-payload extensions; compute the entry
checksum; when the destination exists with an equal checksum, skip the
entry (returning none, so it is absent from the result); otherwise write
the destination file, set its modification time best-effort (a failure
only logs a warning), and return the entry descriptor. -/
def processEntry (env : Env) (d : Downloader) (f : Entry) (st : St) :
    Except String (Option Entry) × St :=
  if f.isDir then (.ok none, st)
  else if Ext f.name ≠ ".csv" ∧ Ext f.name ≠ ".mmdb" then (.ok none, st)
  else
    let expHash := env.hash f.content
    let dbpath := dbPath d f
    let write : St → Except String (Option Entry) × St := fun st =>
      if dbpath ∈ env.createFails then
        (.error ("Cannot create database file " ++ f.name), st)
      else
        let st := st.setFiles (st.files.set dbpath ⟨f.content, env.now⟩)
        let st := st.emit (.writeDest dbpath)
        if dbpath ∈ env.chtimesFails then
          (.ok (some f), st.emit (.chtimesWarn dbpath))
        else
          (.ok (some f), st.setFiles (st.files.set dbpath ⟨f.content, f.modTime⟩))
    if fileExists st.files dbpath then
      match checksumFromFile env st.files dbpath with
      | .error e => (.error e, st)
      | .ok curHash =>
        if expHash = curHash then (.ok none, st)
        else write st
    else write st

/-- The fold of the walk over the entry sequence, accumulating the
descriptor list; an error of the closure aborts the walk. -/
def extractLoop (env : Env) (d : Downloader) (entries : List Entry) (dbs : List Entry)
    (st : St) : Except String (List Entry) × St :=
  match entries with
  | [] => (.ok dbs, st)
  | f :: rest =>
    match processEntry env d f st with
    | (.error e, st) => (.error e, st)
    | (.ok none, st) => extractLoop env d rest dbs st
    | (.ok (some g), st) => extractLoop env d rest (dbs ++ [g]) st

/-- extractArchive (lines 195-251): walk the archive entries in order with
the per-entry closure; a missing archive is a walk error. -/
def extractArchive (env : Env) (d : Downloader) (archive : String) (st : St) :
    Except String (List Entry) × St :=
  match st.files.lookup archive with
  | none => (.error ("open " ++ archive ++ ": no such file"), st)
  | some fd => extractLoop env d (env.parseArchive fd.content) [] st

/-- Download (lines 52-78): get the expected hash, download the archive,
create the MD5 marker file, then extract the archive; the first failure
aborts the pipeline. -/
def Download (env : Env) (d : Downloader) (st : St) : Except String (List Entry) × St :=
  match expectedHash env st with
  | (.error e, st) => (.error ("Cannot get archive MD5 hash: " ++ e), st)
  | (.ok expHash, st) =>
    let archive := archivePath d
    match downloadArchive env expHash archive st with
    | (.error e, st) => (.error e, st)
    | (.ok _, st) =>
      match createFile env st (md5Path d) expHash with
      | .error _ => (.error ("Cannot create MD5 file " ++ md5Path d), st)
      | .ok st => extractArchive env d archive st

/-- The destination paths produced by the archive decoder stay clear of
the archive file and of the checksum marker (the download directory does
not alias the two working-directory files). -/
def SepPaths (env : Env) (d : Downloader) : Prop :=
  ∀ c : String, ∀ f ∈ env.parseArchive c,
    dbPath d f ≠ archivePath d ∧ dbPath d f ≠ md5Path d

/-- The payload entries produced by the archive decoder carry pairwise
distinct names. -/
def NodupNames (env : Env) : Prop :=
  ∀ c : String, (((env.parseArchive c).filter isPayload).map Entry.name).Nodup

/-- Concrete digest used by the witnesses: the identity function is a
deterministic content digest. -/
def hashW : String → String := fun s => s

/-- Concrete downloader used by the witnesses. -/
def dW : Downloader := ⟨"wd", "dl", "GeoLite2-City.tar.gz"⟩

/-- Empty initial state. -/
def stEmpty : St := ⟨[], []⟩

/-- Witness environment for the integrity-failure scenario: expected
checksum deadbeef, archive bytes hashing to feedface. -/
def envC1 : Env := ⟨hashW, fun _ => [], (200, "deadbeef"), (200, "feedface"), [], [], 0⟩

/-- Payload entry used by the skip witnesses. -/
def eC2 : Entry := ⟨"GeoLite2-City.csv", false, "DATA", 4, 9⟩

/-- Environment whose archive bytes ARC decode to the single payload
entry eC2. -/
def envC2 : Env :=
  ⟨hashW, fun c => if c = "ARC" then [eC2] else [], (200, "ARC"), (200, "ARC"), [], [], 0⟩

/-- State with a valid archive on disk and a destination file already
matching the entry checksum. -/
def stC2 : St :=
  ⟨[("wd/GeoLite2-City.tar.gz", ⟨"ARC", 1⟩), ("dl/GeoLite2-City.csv", ⟨"DATA", 2⟩)], []⟩

/-- Environment for the marker counterexample: the expected checksum is
NEW. -/
def envC3 : Env := ⟨hashW, fun _ => [], (200, "NEW"), (200, "NEW"), [], [], 0⟩

/-- State whose marker already stores the expected checksum NEW while the
archive bytes hash to OLD. -/
def stC3 : St :=
  ⟨[("wd/GeoLite2-City.tar.gz", ⟨"OLD", 1⟩),
    ("wd/.GeoLite2-City.tar.gz.md5", ⟨"NEW", 1⟩)], []⟩

/-- State whose marker and archive both agree with the expected checksum
NEW. -/
def stC3b : St :=
  ⟨[("wd/GeoLite2-City.tar.gz", ⟨"NEW", 1⟩),
    ("wd/.GeoLite2-City.tar.gz.md5", ⟨"NEW", 1⟩)], []⟩

/-- Entries of the extraction-filtering witness: a payload csv, a
directory, a payload mmdb and a txt file. -/
def eC5a : Entry := ⟨"a.csv", false, "A", 1, 1⟩

def eC5b : Entry := ⟨"sub", true, "", 0, 2⟩

def eC5c : Entry := ⟨"b.mmdb", false, "B", 1, 3⟩

def eC5d : Entry := ⟨"c.txt", false, "C", 1, 4⟩

/-- Environment whose archive bytes ARC decode to the four entries
above. -/
def envC5 : Env :=
  ⟨hashW, fun c => if c = "ARC" then [eC5a, eC5b, eC5c, eC5d] else [],
   (200, "ARC"), (200, "ARC"), [], [], 0⟩

/-- State with only the archive on disk. -/
def stC5 : St := ⟨[("wd/GeoLite2-City.tar.gz", ⟨"ARC", 1⟩)], []⟩

/-- Payload entry of the idempotence witness. -/
def eC6 : Entry := ⟨"City.csv", false, "DATA", 4, 7⟩

/-- Environment of the idempotence witness. -/
def envC6 : Env :=
  ⟨hashW, fun c => if c = "ARC" then [eC6] else [], (200, "ARC"), (200, "ARC"), [], [], 100⟩

/-- State after the first successful Download run of the idempotence
witness. -/
def stC6 : St := (Download envC6 dW stEmpty).2

/-- Environment of the failing-status scenario: 401 with a diagnostic body
on the metadata endpoint, 500 on the archive endpoint. -/
def envC7 : Env :=
  ⟨hashW, fun _ => [], (401, "Invalid license key"), (500, "Server error body"), [], [], 0⟩

/-- Same as envC7 with a completely different metadata response body. -/
def envC7b : Env :=
  ⟨hashW, fun _ => [], (401, "a totally different body"), (500, "x"), [], [], 0⟩

/-- Environment of the chtimes-failure witness: setting the modification
time of the destination of eC6 fails. -/
def envC9 : Env :=
  ⟨hashW, fun c => if c = "ARC" then [eC6] else [], (200, "ARC"), (200, "ARC"),
   [], ["dl/City.csv"], 100⟩

/-- Environment of the marker-write-failure witness: the marker path is
unwritable. -/
def envC10 : Env :=
  ⟨hashW, fun c => if c = "ARC" then [eC6] else [], (200, "ARC"), (200, "ARC"),
   ["wd/.GeoLite2-City.tar.gz.md5"], [], 0⟩

theorem FS.lookup_set (fs : FS) (p q : String) (v : FileData) :
    (fs.set p v).lookup q = if q = p then some v else fs.lookup q := by
  induction fs with
  | nil => simp [FS.set, FS.lookup]
  | cons hd tl ih =>
    obtain ⟨r, w⟩ := hd
    by_cases h1 : p = r
    · subst h1
      by_cases h2 : q = p <;> simp [FS.set, FS.lookup, h2]
    · have h3 : ¬r = p := fun h => h1 h.symm
      by_cases h2 : q = r
      · subst h2
        simp [FS.set, FS.lookup, h1, h3]
      · simp [FS.set, FS.lookup, h1, h2, ih]

theorem FS.set_self (fs : FS) (p : String) (v : FileData)
    (h : fs.lookup p = some v) : fs.set p v = fs := by
  induction fs with
  | nil => simp [FS.lookup] at h
  | cons hd tl ih =>
    obtain ⟨r, w⟩ := hd
    by_cases h1 : p = r
    · subst h1
      have h2 : w = v := by simpa [FS.lookup] using h
      subst h2
      simp [FS.set]
    · have h2 : FS.lookup tl p = some v := by simpa [FS.lookup, h1] using h
      simp [FS.set, h1, ih h2]

theorem String.eq_of_data_eq {a b : String} (h : a.data = b.data) : a = b := by
  cases a; cases b; exact congrArg String.mk h

theorem String.append_cancel {x a b : String} (h : x ++ a = x ++ b) : a = b := by
  have h2 := congrArg String.data h
  simp only [String.data_append] at h2
  exact String.eq_of_data_eq (List.append_cancel_left h2)

theorem md5Path_ne_archivePath (d : Downloader) : md5Path d ≠ archivePath d := by
  intro h
  have h2 := congrArg String.length h
  have e1 : ("/." : String).length = 2 := rfl
  have e2 : (".md5" : String).length = 4 := rfl
  have e3 : ("/" : String).length = 1 := rfl
  simp only [md5Path, archivePath, String.length_append, e1, e2, e3] at h2
  omega

theorem dbPath_inj (d : Downloader) {f g : Entry} (h : dbPath d f ≠ dbPath d g) :
    f.name ≠ g.name := by
  intro hn
  exact h (by simp [dbPath, hn])

theorem dbPath_ne_of_name_ne (d : Downloader) {f g : Entry} (h : f.name ≠ g.name) :
    dbPath d f ≠ dbPath d g := by
  intro hp
  exact h (String.append_cancel (by simpa [dbPath] using hp))

/-- On a 200 status the metadata fetch returns the raw response body. -/
theorem expectedHash_ok (env : Env) (st : St) (h : env.mdResp.1 = 200) :
    expectedHash env st = (.ok env.mdResp.2, st.emit .httpMd) := by
  simp [expectedHash, h]

/-- isPayload unfolded into propositional form. -/
theorem isPayload_iff (f : Entry) :
    isPayload f = true ↔ f.isDir = false ∧ (Ext f.name = ".csv" ∨ Ext f.name = ".mmdb") := by
  simp [isPayload, Bool.and_eq_true, Bool.or_eq_true]

@[simp] theorem St.emit_files (st : St) (e : Event) : (st.emit e).files = st.files := rfl

@[simp] theorem St.emit_events (st : St) (e : Event) :
    (st.emit e).events = st.events ++ [e] := rfl

@[simp] theorem St.setFiles_files (st : St) (fs : FS) : (st.setFiles fs).files = fs := rfl

@[simp] theorem St.setFiles_events (st : St) (fs : FS) :
    (st.setFiles fs).events = st.events := rfl

theorem FS.set_set (fs : FS) (p : String) (v w : FileData) :
    (fs.set p v).set p w = fs.set p w := by
  induction fs with
  | nil => simp [FS.set]
  | cons hd tl ih =>
    obtain ⟨r, q⟩ := hd
    by_cases h1 : p = r <;> simp [FS.set, h1, ih]

/-- Entries that are directories or have a non-payload extension are
skipped silently: no filesystem change, no event, no error, no
descriptor. -/
theorem processEntry_nonpayload (env : Env) (d : Downloader) (f : Entry) (st : St)
    (h : isPayload f = false) : processEntry env d f st = (.ok none, st) := by
  by_cases hd : f.isDir
  · simp [processEntry, hd]
  · have hb : f.isDir = false := by simpa using hd
    have hx : Ext f.name ≠ ".csv" ∧ Ext f.name ≠ ".mmdb" := by
      simpa [isPayload, hb] using h
    simp [processEntry, hd, hx]

/-- Per-entry skip: a payload entry whose destination already has matching
content checksum is skipped, leaving the state untouched and returning no
descriptor for it. -/
theorem processEntry_skip (env : Env) (d : Downloader) (f : Entry) (st : St)
    (fd : FileData) (hpay : isPayload f = true)
    (hdest : st.files.lookup (dbPath d f) = some fd)
    (hh : env.hash fd.content = env.hash f.content) :
    processEntry env d f st = (.ok none, st) := by
  obtain ⟨hdir, hext⟩ := (isPayload_iff f).1 hpay
  have hnot : ¬(Ext f.name ≠ ".csv" ∧ Ext f.name ≠ ".mmdb") := by
    rcases hext with h1 | h1 <;> simp [h1]
  simp [processEntry, hdir, hnot, fileExists, hdest, checksumFromFile, hh]

/-- A payload entry that is not skipped (no destination file, or one whose
checksum differs) on a writable destination, with Chtimes succeeding, is
extracted: the destination is written with the entry content and
modification time, a write event is recorded, and the descriptor is
returned. -/
theorem processEntry_write (env : Env) (d : Downloader) (f : Entry) (st : St)
    (hpay : isPayload f = true)
    (hnoskip : ∀ fd, st.files.lookup (dbPath d f) = some fd →
      env.hash f.content ≠ env.hash fd.content)
    (hcr : dbPath d f ∉ env.createFails) (hch : dbPath d f ∉ env.chtimesFails) :
    processEntry env d f st =
      (.ok (some f),
       ⟨st.files.set (dbPath d f) ⟨f.content, f.modTime⟩,
        st.events ++ [.writeDest (dbPath d f)]⟩) := by
  obtain ⟨hdir, hext⟩ := (isPayload_iff f).1 hpay
  have hnot : ¬(Ext f.name ≠ ".csv" ∧ Ext f.name ≠ ".mmdb") := by
    rcases hext with h1 | h1 <;> simp [h1]
  rcases hdl : st.files.lookup (dbPath d f) with _ | fd
  · simp [processEntry, hdir, hnot, fileExists, hdl, hcr, hch, St.emit, St.setFiles,
      FS.set_set]
  · have hne := hnoskip fd hdl
    simp [processEntry, hdir, hnot, fileExists, hdl, checksumFromFile, hne, hcr, hch,
      St.emit, St.setFiles, FS.set_set]

/-- A payload entry that must be written, on whose destination Chtimes
fails: the destination keeps the creation-time modification time, the
failure is recorded as a warning event only, and the descriptor is still
returned. -/
theorem processEntry_write_chtimesFail (env : Env) (d : Downloader) (f : Entry) (st : St)
    (hpay : isPayload f = true)
    (hnoskip : ∀ fd, st.files.lookup (dbPath d f) = some fd →
      env.hash f.content ≠ env.hash fd.content)
    (hcr : dbPath d f ∉ env.createFails) (hch : dbPath d f ∈ env.chtimesFails) :
    processEntry env d f st =
      (.ok (some f),
       ⟨st.files.set (dbPath d f) ⟨f.content, env.now⟩,
        st.events ++ [.writeDest (dbPath d f), .chtimesWarn (dbPath d f)]⟩) := by
  obtain ⟨hdir, hext⟩ := (isPayload_iff f).1 hpay
  have hnot : ¬(Ext f.name ≠ ".csv" ∧ Ext f.name ≠ ".mmdb") := by
    rcases hext with h1 | h1 <;> simp [h1]
  rcases hdl : st.files.lookup (dbPath d f) with _ | fd
  · simp [processEntry, hdir, hnot, fileExists, hdl, hcr, hch, St.emit, St.setFiles]
  · have hne := hnoskip fd hdl
    simp [processEntry, hdir, hnot, fileExists, hdl, checksumFromFile, hne, hcr, hch,
      St.emit, St.setFiles]

/-- A payload entry that must be written but whose destination path cannot
be created aborts the walk with an error, leaving the state untouched. -/
theorem processEntry_createFail (env : Env) (d : Downloader) (f : Entry) (st : St)
    (hpay : isPayload f = true)
    (hnoskip : ∀ fd, st.files.lookup (dbPath d f) = some fd →
      env.hash f.content ≠ env.hash fd.content)
    (hcr : dbPath d f ∈ env.createFails) :
    processEntry env d f st = (.error ("Cannot create database file " ++ f.name), st) := by
  obtain ⟨hdir, hext⟩ := (isPayload_iff f).1 hpay
  have hnot : ¬(Ext f.name ≠ ".csv" ∧ Ext f.name ≠ ".mmdb") := by
    rcases hext with h1 | h1 <;> simp [h1]
  rcases hdl : st.files.lookup (dbPath d f) with _ | fd
  · simp [processEntry, hdir, hnot, fileExists, hdl, hcr]
  · have hne := hnoskip fd hdl
    simp [processEntry, hdir, hnot, fileExists, hdl, checksumFromFile, hne, hcr]

/-- Whenever the per-entry closure returns without error on a payload
entry, the destination file afterwards holds content whose checksum
matches the entry checksum. -/
theorem processEntry_ok_destCurrent (env : Env) (d : Downloader) (f : Entry) (st : St)
    (r : Option Entry) (st1 : St) (hpay : isPayload f = true)
    (h : processEntry env d f st = (.ok r, st1)) :
    ∃ fd, st1.files.lookup (dbPath d f) = some fd ∧
      env.hash fd.content = env.hash f.content := by
  by_cases hsk : ∃ fd, st.files.lookup (dbPath d f) = some fd ∧
      env.hash f.content = env.hash fd.content
  · obtain ⟨fd, hdl, hh⟩ := hsk
    rw [processEntry_skip env d f st fd hpay hdl hh.symm] at h
    have hst : st = st1 := congrArg Prod.snd h
    exact ⟨fd, hst ▸ hdl, hh.symm⟩
  · have hnoskip : ∀ fd, st.files.lookup (dbPath d f) = some fd →
        env.hash f.content ≠ env.hash fd.content :=
      fun fd hdl hh => hsk ⟨fd, hdl, hh⟩
    by_cases hcr : dbPath d f ∈ env.createFails
    · rw [processEntry_createFail env d f st hpay hnoskip hcr] at h
      exact absurd (congrArg Prod.fst h) (by simp)
    · by_cases hch : dbPath d f ∈ env.chtimesFails
      · rw [processEntry_write_chtimesFail env d f st hpay hnoskip hcr hch] at h
        injection h with h1 h2
        subst h2
        exact ⟨⟨f.content, env.now⟩, by simp [FS.lookup_set], rfl⟩
      · rw [processEntry_write env d f st hpay hnoskip hcr hch] at h
        injection h with h1 h2
        subst h2
        exact ⟨⟨f.content, f.modTime⟩, by simp [FS.lookup_set], rfl⟩

/-- The per-entry closure touches no path other than the destination path
of its entry. -/
theorem processEntry_files_frame (env : Env) (d : Downloader) (f : Entry) (st : St)
    (p : String) (hp : p ≠ dbPath d f) :
    (processEntry env d f st).2.files.lookup p = st.files.lookup p := by
  by_cases hpay : isPayload f = true
  · by_cases hsk : ∃ fd, st.files.lookup (dbPath d f) = some fd ∧
        env.hash f.content = env.hash fd.content
    · obtain ⟨fd, hdl, hh⟩ := hsk
      rw [processEntry_skip env d f st fd hpay hdl hh.symm]
    · have hnoskip : ∀ fd, st.files.lookup (dbPath d f) = some fd →
          env.hash f.content ≠ env.hash fd.content :=
        fun fd hdl hh => hsk ⟨fd, hdl, hh⟩
      by_cases hcr : dbPath d f ∈ env.createFails
      · rw [processEntry_createFail env d f st hpay hnoskip hcr]
      · by_cases hch : dbPath d f ∈ env.chtimesFails
        · rw [processEntry_write_chtimesFail env d f st hpay hnoskip hcr hch]
          simp [FS.lookup_set, hp]
        · rw [processEntry_write env d f st hpay hnoskip hcr hch]
          simp [FS.lookup_set, hp]
  · rw [processEntry_nonpayload env d f st (by simpa using hpay)]

/-- The walk touches no path other than the destination paths of its
payload entries. -/
theorem extractLoop_files_frame (env : Env) (d : Downloader) (entries : List Entry)
    (dbs : List Entry) (st : St) (p : String)
    (hp : ∀ f ∈ entries, isPayload f = true → p ≠ dbPath d f) :
    (extractLoop env d entries dbs st).2.files.lookup p = st.files.lookup p := by
  induction entries generalizing dbs st with
  | nil => rfl
  | cons f rest ih =>
    have hrest : ∀ g ∈ rest, isPayload g = true → p ≠ dbPath d g :=
      fun g hg => hp g (List.mem_cons_of_mem f hg)
    by_cases hpay : isPayload f = true
    · have hf := processEntry_files_frame env d f st p (hp f (List.mem_cons_self f rest) hpay)
      rcases hres : processEntry env d f st with ⟨r, st1⟩
      rw [hres] at hf
      rcases r with e | o
      · simpa [extractLoop, hres] using hf
      · rcases o with _ | g
        · simp only [extractLoop, hres]
          rw [ih dbs st1 hrest, hf]
        · simp only [extractLoop, hres]
          rw [ih (dbs ++ [g]) st1 hrest, hf]
    · rw [show extractLoop env d (f :: rest) dbs st = extractLoop env d rest dbs st from by
        simp [extractLoop, processEntry_nonpayload env d f st (by simpa using hpay)]]
      exact ih dbs st hrest

/-- After a walk that completed without error, every payload entry of the
walked sequence has a destination file whose content checksum matches the
entry checksum (the walk made every payload entry current on disk). -/
theorem extractLoop_ok_destCurrent (env : Env) (d : Downloader) (entries : List Entry)
    (dbs dbs' : List Entry) (st st' : St)
    (h : extractLoop env d entries dbs st = (.ok dbs', st'))
    (hnd : ((entries.filter isPayload).map Entry.name).Nodup) :
    ∀ f ∈ entries, isPayload f = true →
      ∃ fd, st'.files.lookup (dbPath d f) = some fd ∧
        env.hash fd.content = env.hash f.content := by
  revert h hnd
  induction entries generalizing dbs st with
  | nil =>
    intro h hnd f hf
    exact absurd hf (List.not_mem_nil f)
  | cons g rest ih =>
    intro h hnd f hf hpay
    by_cases hgp : isPayload g = true
    · have hfc : (g :: rest).filter isPayload = g :: rest.filter isPayload :=
        List.filter_cons_of_pos hgp
      rw [hfc] at hnd
      simp only [List.map_cons, List.nodup_cons] at hnd
      obtain ⟨hgname, hnd'⟩ := hnd
      rcases hres : processEntry env d g st with ⟨r, st1⟩
      rcases r with e | o
      · simp [extractLoop, hres] at h
      · obtain ⟨dbs0, h'⟩ : ∃ dbs0, extractLoop env d rest dbs0 st1 = (.ok dbs', st') := by
          rcases o with _ | g'
          · exact ⟨dbs, by simpa [extractLoop, hres] using h⟩
          · exact ⟨dbs ++ [g'], by simpa [extractLoop, hres] using h⟩
        rcases List.mem_cons.mp hf with rfl | hf
        · obtain ⟨fd, hl, hh⟩ := processEntry_ok_destCurrent env d f st o st1 hgp hres
          have hfr : ∀ f' ∈ rest, isPayload f' = true → dbPath d f ≠ dbPath d f' := by
            intro f' hf' hp'
            apply dbPath_ne_of_name_ne
            intro hnm
            exact hgname (hnm ▸ List.mem_map_of_mem Entry.name
              (List.mem_filter.mpr ⟨hf', hp'⟩))
          have hframe := extractLoop_files_frame env d rest dbs0 st1 (dbPath d f) hfr
          rw [h'] at hframe
          exact ⟨fd, hframe.trans hl, hh⟩
        · exact ih dbs0 st1 h' hnd' f hf hpay
    · have hloop : extractLoop env d (g :: rest) dbs st = extractLoop env d rest dbs st := by
        simp [extractLoop, processEntry_nonpayload env d g st (by simpa using hgp)]
      rw [hloop] at h
      have hfc : (g :: rest).filter isPayload = rest.filter isPayload :=
        List.filter_cons_of_neg (by simpa using hgp)
      rw [hfc] at hnd
      rcases List.mem_cons.mp hf with rfl | hf
      · exact absurd hpay (by simpa using hgp)
      · exact ih dbs st h hnd f hf hpay

/-- A walk over entries that are all already current on disk changes
nothing: it returns the accumulator unchanged and the state unchanged
(only checksum comparisons occur). -/
theorem extractLoop_allCurrent (env : Env) (d : Downloader) (entries : List Entry)
    (dbs : List Entry) (st : St)
    (hcur : ∀ f ∈ entries, isPayload f = true →
      ∃ fd, st.files.lookup (dbPath d f) = some fd ∧
        env.hash fd.content = env.hash f.content) :
    extractLoop env d entries dbs st = (.ok dbs, st) := by
  induction entries with
  | nil => rfl
  | cons g rest ih =>
    by_cases hgp : isPayload g = true
    · obtain ⟨fd, hl, hh⟩ := hcur g (List.mem_cons_self g rest) hgp
      simp only [extractLoop, processEntry_skip env d g st fd hgp hl hh]
      exact ih (fun f hf hp => hcur f (List.mem_cons_of_mem g hf) hp)
    · simp only [extractLoop, processEntry_nonpayload env d g st (by simpa using hgp)]
      exact ih (fun f hf hp => hcur f (List.mem_cons_of_mem g hf) hp)

/-- A walk into a fresh destination directory (no payload destination
exists yet, all destinations writable, payload names distinct) extracts
exactly the payload entries, in walk order. -/
theorem extractLoop_fresh (env : Env) (d : Downloader) (entries : List Entry)
    (dbs : List Entry) (st : St)
    (hfresh : ∀ f ∈ entries, isPayload f = true →
      st.files.lookup (dbPath d f) = none ∧ dbPath d f ∉ env.createFails)
    (hnd : ((entries.filter isPayload).map Entry.name).Nodup) :
    ∃ st', extractLoop env d entries dbs st = (.ok (dbs ++ entries.filter isPayload), st') := by
  revert hfresh hnd
  induction entries generalizing dbs st with
  | nil =>
    intro _ _
    exact ⟨st, by simp [extractLoop]⟩
  | cons g rest ih =>
    intro hfresh hnd
    by_cases hgp : isPayload g = true
    · obtain ⟨hmiss, hcr⟩ := hfresh g (List.mem_cons_self g rest) hgp
      have hnoskip : ∀ fd, st.files.lookup (dbPath d g) = some fd →
          env.hash g.content ≠ env.hash fd.content := by
        intro fd hdl
        simp [hmiss] at hdl
      have hfc : (g :: rest).filter isPayload = g :: rest.filter isPayload :=
        List.filter_cons_of_pos hgp
      rw [hfc] at hnd
      simp only [List.map_cons, List.nodup_cons] at hnd
      obtain ⟨hgname, hnd'⟩ := hnd
      have hnames : ∀ f ∈ rest, isPayload f = true → dbPath d f ≠ dbPath d g := by
        intro f hf hp
        apply dbPath_ne_of_name_ne
        intro hnm
        exact hgname (hnm ▸ List.mem_map_of_mem Entry.name (List.mem_filter.mpr ⟨hf, hp⟩))
      by_cases hch : dbPath d g ∈ env.chtimesFails
      · have hpe := processEntry_write_chtimesFail env d g st hgp hnoskip hcr hch
        have hfresh' : ∀ f ∈ rest, isPayload f = true →
            (st.files.set (dbPath d g) ⟨g.content, env.now⟩).lookup (dbPath d f) = none ∧
            dbPath d f ∉ env.createFails := by
          intro f hf hp
          obtain ⟨hm, hc⟩ := hfresh f (List.mem_cons_of_mem g hf) hp
          exact ⟨by rw [FS.lookup_set]; simp [hnames f hf hp, hm], hc⟩
        obtain ⟨st', hloop⟩ := ih (dbs ++ [g])
          ⟨st.files.set (dbPath d g) ⟨g.content, env.now⟩,
           st.events ++ [.writeDest (dbPath d g), .chtimesWarn (dbPath d g)]⟩ hfresh' hnd'
        refine ⟨st', ?_⟩
        simp only [extractLoop, hpe, hloop, hfc]
        simp
      · have hpe := processEntry_write env d g st hgp hnoskip hcr hch
        have hfresh' : ∀ f ∈ rest, isPayload f = true →
            (st.files.set (dbPath d g) ⟨g.content, g.modTime⟩).lookup (dbPath d f) = none ∧
            dbPath d f ∉ env.createFails := by
          intro f hf hp
          obtain ⟨hm, hc⟩ := hfresh f (List.mem_cons_of_mem g hf) hp
          exact ⟨by rw [FS.lookup_set]; simp [hnames f hf hp, hm], hc⟩
        obtain ⟨st', hloop⟩ := ih (dbs ++ [g])
          ⟨st.files.set (dbPath d g) ⟨g.content, g.modTime⟩,
           st.events ++ [.writeDest (dbPath d g)]⟩ hfresh' hnd'
        refine ⟨st', ?_⟩
        simp only [extractLoop, hpe, hloop, hfc]
        simp
    · have hloop : extractLoop env d (g :: rest) dbs st = extractLoop env d rest dbs st := by
        simp [extractLoop, processEntry_nonpayload env d g st (by simpa using hgp)]
      have hfc : (g :: rest).filter isPayload = rest.filter isPayload :=
        List.filter_cons_of_neg (by simpa using hgp)
      rw [hloop, hfc]
      exact ih dbs st (fun f hf hp => hfresh f (List.mem_cons_of_mem g hf) hp) (hfc ▸ hnd)

/-- The only descriptor the per-entry closure can return is the entry
itself. -/
theorem processEntry_ok_some (env : Env) (d : Downloader) (f : Entry) (st : St)
    (g : Entry) (st1 : St) (h : processEntry env d f st = (.ok (some g), st1)) :
    g = f := by
  by_cases hpay : isPayload f = true
  · by_cases hsk : ∃ fd, st.files.lookup (dbPath d f) = some fd ∧
        env.hash f.content = env.hash fd.content
    · obtain ⟨fd, hdl, hh⟩ := hsk
      rw [processEntry_skip env d f st fd hpay hdl hh.symm] at h
      exact absurd (congrArg Prod.fst h) (by simp)
    · have hnoskip : ∀ fd, st.files.lookup (dbPath d f) = some fd →
          env.hash f.content ≠ env.hash fd.content :=
        fun fd hdl hh => hsk ⟨fd, hdl, hh⟩
      by_cases hcr : dbPath d f ∈ env.createFails
      · rw [processEntry_createFail env d f st hpay hnoskip hcr] at h
        exact absurd (congrArg Prod.fst h) (by simp)
      · by_cases hch : dbPath d f ∈ env.chtimesFails
        · rw [processEntry_write_chtimesFail env d f st hpay hnoskip hcr hch] at h
          injection h with h1 h2
          injection h1 with h3
          injection h3 with h4
          exact h4.symm
        · rw [processEntry_write env d f st hpay hnoskip hcr hch] at h
          injection h with h1 h2
          injection h1 with h3
          injection h3 with h4
          exact h4.symm
  · rw [processEntry_nonpayload env d f st (by simpa using hpay)] at h
    exact absurd (congrArg Prod.fst h) (by simp)

/-- A payload entry returning a descriptor cannot be a non-payload entry:
the closure only appends payload entries. -/
theorem processEntry_some_payload (env : Env) (d : Downloader) (f : Entry) (st : St)
    (g : Entry) (st1 : St) (h : processEntry env d f st = (.ok (some g), st1)) :
    isPayload f = true := by
  by_contra hng
  rw [processEntry_nonpayload env d f st (by simpa using hng)] at h
  exact absurd (congrArg Prod.fst h) (by simp)

/-- Whatever the starting state, a successful walk only ever appends
payload entries of the walked sequence, keeping their walk order: the
returned suffix is a sublist of the payload filter of the sequence. -/
theorem extractLoop_ok_sublist (env : Env) (d : Downloader) (entries : List Entry)
    (dbs dbs' : List Entry) (st st' : St)
    (h : extractLoop env d entries dbs st = (.ok dbs', st')) :
    ∃ sfx, dbs' = dbs ++ sfx ∧ List.Sublist sfx (entries.filter isPayload) := by
  revert h
  induction entries generalizing dbs st with
  | nil =>
    intro h
    injection h with h1 h2
    injection h1 with h3
    exact ⟨[], by simp [h3], by simp⟩
  | cons g rest ih =>
    intro h
    have hsub : List.Sublist (rest.filter isPayload) ((g :: rest).filter isPayload) := by
      by_cases hgp : isPayload g = true
      · rw [List.filter_cons_of_pos hgp]
        exact List.Sublist.cons g (List.Sublist.refl _)
      · rw [List.filter_cons_of_neg (by simpa using hgp)]
    rcases hres : processEntry env d g st with ⟨r, st1⟩
    rcases r with e | o
    · simp [extractLoop, hres] at h
    · rcases o with _ | g'
      · have h' : extractLoop env d rest dbs st1 = (.ok dbs', st') := by
          simpa [extractLoop, hres] using h
        obtain ⟨sfx, h1, h2⟩ := ih dbs st1 h'
        exact ⟨sfx, h1, h2.trans hsub⟩
      · obtain rfl : g = g' := (processEntry_ok_some env d g st g' st1 hres).symm
        have hpay := processEntry_some_payload env d g st g st1 hres
        have h' : extractLoop env d rest (dbs ++ [g]) st1 = (.ok dbs', st') := by
          simpa [extractLoop, hres] using h
        obtain ⟨sfx, h1, h2⟩ := ih (dbs ++ [g]) st1 h'
        refine ⟨g :: sfx, by simp [h1], ?_⟩
        rw [List.filter_cons_of_pos hpay]
        exact List.Sublist.cons₂ _ h2

/-- Skip-on-match: an existing archive file whose recomputed checksum
equals the expected checksum makes the fetcher return success after one
checksum computation, with no further effect. -/
theorem downloadArchive_skip (env : Env) (expHash archive : String) (st : St)
    (fd : FileData) (harch : st.files.lookup archive = some fd)
    (hh : env.hash fd.content = expHash) :
    downloadArchive env expHash archive st = (.ok (), st.emit .hashArchive) := by
  simp [downloadArchive, fileExists, harch, checksumFromFile, hh]

/-- A missing archive file sends the fetcher straight to the download. -/
theorem downloadArchive_nofile (env : Env) (expHash archive : String) (st : St)
    (hno : st.files.lookup archive = none) :
    downloadArchive env expHash archive st = downloadArchiveFetch env expHash archive st := by
  simp [downloadArchive, fileExists, hno]

/-- The download tail on a 200 response and a writable archive path writes
the response body into the archive file and recomputes its checksum; a
match yields success. -/
theorem downloadArchiveFetch_ok (env : Env) (expHash archive : String) (st : St)
    (h200 : env.arResp.1 = 200) (hcr : archive ∉ env.createFails)
    (hh : env.hash env.arResp.2 = expHash) :
    downloadArchiveFetch env expHash archive st =
      (.ok (), ⟨st.files.set archive ⟨env.arResp.2, env.now⟩,
        st.events ++ [.httpArchive, .hashArchive]⟩) := by
  simp [downloadArchiveFetch, h200, hcr, checksumFromFile, FS.lookup_set, hh, St.emit,
    St.setFiles]

/-- The download tail on a 200 response whose bytes hash to something
other than the expected checksum fails with the integrity error message
carrying both checksums, after having written the archive file. -/
theorem downloadArchiveFetch_mismatch (env : Env) (expHash archive : String) (st : St)
    (h200 : env.arResp.1 = 200) (hcr : archive ∉ env.createFails)
    (hh : env.hash env.arResp.2 ≠ expHash) :
    downloadArchiveFetch env expHash archive st =
      (.error ("MD5 of downloaded archive (" ++ env.hash env.arResp.2
        ++ ") does not match expected md5 (" ++ expHash ++ ")"),
       ⟨st.files.set archive ⟨env.arResp.2, env.now⟩,
        st.events ++ [.httpArchive, .hashArchive]⟩) := by
  have hh2 : ¬expHash = env.hash env.arResp.2 := fun h => hh h.symm
  simp [downloadArchiveFetch, h200, hcr, checksumFromFile, FS.lookup_set, hh2, St.emit,
    St.setFiles]

/-- Facts that hold after any successful run of the download tail: the
archive file holds the response body, its checksum was confirmed equal to
the expected checksum, and exactly the download and hash events were
recorded. -/
theorem downloadArchiveFetch_ok_post (env : Env) (expHash archive : String) (st st' : St)
    (h : downloadArchiveFetch env expHash archive st = (.ok (), st')) :
    st'.files = st.files.set archive ⟨env.arResp.2, env.now⟩ ∧
    env.hash env.arResp.2 = expHash ∧
    st'.events = st.events ++ [.httpArchive, .hashArchive] := by
  by_cases h200 : env.arResp.1 = 200
  · by_cases hcr : archive ∈ env.createFails
    · simp [downloadArchiveFetch, h200, hcr] at h
    · by_cases hh : env.hash env.arResp.2 = expHash
      · rw [downloadArchiveFetch_ok env expHash archive st h200 hcr hh] at h
        injection h with h1 h2
        subst h2
        exact ⟨rfl, hh, rfl⟩
      · rw [downloadArchiveFetch_mismatch env expHash archive st h200 hcr hh] at h
        exact absurd (congrArg Prod.fst h) (by simp)
  · simp [downloadArchiveFetch, h200] at h

/-- Facts that hold after any successful fetch step (skipped or not): the
archive file on disk has the expected checksum, no other path was
touched, and no destination write event was recorded. -/
theorem downloadArchive_ok_post (env : Env) (expHash archive : String) (st st' : St)
    (h : downloadArchive env expHash archive st = (.ok (), st')) :
    (∃ fd, st'.files.lookup archive = some fd ∧ env.hash fd.content = expHash) ∧
    (∀ p, p ≠ archive → st'.files.lookup p = st.files.lookup p) ∧
    (∃ tail, st'.events = st.events ++ tail ∧ ∀ q, Event.writeDest q ∉ tail) := by
  rcases harch : st.files.lookup archive with _ | fd
  · rw [downloadArchive_nofile env expHash archive st harch] at h
    obtain ⟨hf, hh, he⟩ := downloadArchiveFetch_ok_post env expHash archive st st' h
    refine ⟨⟨⟨env.arResp.2, env.now⟩, by simp [hf, FS.lookup_set], hh⟩, ?_, ?_⟩
    · intro p hp
      simp [hf, FS.lookup_set, hp]
    · exact ⟨[.httpArchive, .hashArchive], he, by simp⟩
  · by_cases hh : env.hash fd.content = expHash
    · rw [downloadArchive_skip env expHash archive st fd harch hh] at h
      injection h with h1 h2
      subst h2
      exact ⟨⟨fd, harch, hh⟩, fun p _ => rfl, ⟨[.hashArchive], rfl, by simp⟩⟩
    · have hstep : downloadArchive env expHash archive st =
          downloadArchiveFetch env expHash archive (st.emit .hashArchive) := by
        have hh2 : ¬expHash = env.hash fd.content := fun h2 => hh h2.symm
        simp [downloadArchive, fileExists, harch, checksumFromFile, hh2]
      rw [hstep] at h
      obtain ⟨hf, hhh, he⟩ := downloadArchiveFetch_ok_post env expHash archive
        (st.emit .hashArchive) st' h
      refine ⟨⟨⟨env.arResp.2, env.now⟩, by simp [hf, FS.lookup_set], hhh⟩, ?_, ?_⟩
      · intro p hp
        simp [hf, FS.lookup_set, hp]
      · refine ⟨[.hashArchive, .httpArchive, .hashArchive], by simpa using he, by simp⟩

/-- Facts that hold after any successful Download run, given that the
destination paths stay clear of the working-directory files and payload
names are duplicate-free: the metadata fetch returned 200, the marker path
is writable and now stores the expected checksum, and the archive on disk
hashes to the expected checksum while every payload entry of it is current
on disk. -/
theorem Download_ok_post (env : Env) (d : Downloader) (st st₁ : St) (dbs : List Entry)
    (hsep : SepPaths env d) (hnd : NodupNames env)
    (h : Download env d st = (.ok dbs, st₁)) :
    env.mdResp.1 = 200 ∧
    md5Path d ∉ env.createFails ∧
    st₁.files.lookup (md5Path d) = some ⟨env.mdResp.2, env.now⟩ ∧
    ∃ fd, st₁.files.lookup (archivePath d) = some fd ∧
      env.hash fd.content = env.mdResp.2 ∧
      ∀ f ∈ env.parseArchive fd.content, isPayload f = true →
        ∃ gd, st₁.files.lookup (dbPath d f) = some gd ∧
          env.hash gd.content = env.hash f.content := by
  by_cases hmd : env.mdResp.1 = 200
  case neg => simp [Download, expectedHash, hmd] at h
  simp only [Download, expectedHash_ok env st hmd] at h
  rcases hda : downloadArchive env env.mdResp.2 (archivePath d) (st.emit .httpMd)
    with ⟨r2, st2⟩
  rw [hda] at h
  rcases r2 with e | u
  · simp at h
  · obtain ⟨⟨fd, harch2, hhash⟩, hframe2, _⟩ :=
      downloadArchive_ok_post env env.mdResp.2 (archivePath d) (st.emit .httpMd) st2 hda
    by_cases hcf : md5Path d ∈ env.createFails
    · simp [createFile, hcf] at h
    · simp only [createFile, hcf, if_neg, if_false, ite_false, reduceIte] at h
      set st3 : St := st2.setFiles (st2.files.set (md5Path d) ⟨env.mdResp.2, env.now⟩)
        with hst3
      have harch3 : st3.files.lookup (archivePath d) = some fd := by
        rw [hst3]
        have hne : archivePath d ≠ md5Path d := fun hh => md5Path_ne_archivePath d hh.symm
        simp only [St.setFiles_files, FS.lookup_set, if_neg hne]
        exact harch2
      have hmd3 : st3.files.lookup (md5Path d) = some ⟨env.mdResp.2, env.now⟩ := by
        rw [hst3]
        simp [FS.lookup_set]
      simp only [extractArchive, harch3] at h
      have hpmd5 : ∀ f ∈ env.parseArchive fd.content, isPayload f = true →
          md5Path d ≠ dbPath d f :=
        fun f hf _ => fun hh => (hsep fd.content f hf).2 hh.symm
      have hparch : ∀ f ∈ env.parseArchive fd.content, isPayload f = true →
          archivePath d ≠ dbPath d f :=
        fun f hf _ => fun hh => (hsep fd.content f hf).1 hh.symm
      have hfr5 := extractLoop_files_frame env d (env.parseArchive fd.content) [] st3
        (md5Path d) hpmd5
      have hfrA := extractLoop_files_frame env d (env.parseArchive fd.content) [] st3
        (archivePath d) hparch
      rw [h] at hfr5 hfrA
      refine ⟨hmd, hcf, hfr5.trans hmd3, fd, hfrA.trans harch3, hhash, ?_⟩
      exact extractLoop_ok_destCurrent env d (env.parseArchive fd.content) [] dbs st3 st₁ h
        (hnd fd.content)

/-- Helper to exhibit one string inside another from an explicit
decomposition. -/
theorem strContains_parts (a t b s : String) (h : s.data = a.data ++ t.data ++ b.data) :
    strContains s t :=
  ⟨a.data, b.data, h.symm⟩

/-- Claim C1: whenever the fetch actually downloads (no valid archive is
already on disk) and the freshly written archive hashes differently from
the expected checksum, Download returns an integrity-failure error whose
message carries both checksum strings, does not report success, and leaves
the checksum marker file untouched. -/
theorem C1_integrity_failure (env : Env) (d : Downloader) (st : St)
    (hmd : env.mdResp.1 = 200) (har : env.arResp.1 = 200)
    (hstale : ∀ fd, st.files.lookup (archivePath d) = some fd →
      env.hash fd.content ≠ env.mdResp.2)
    (hcr : archivePath d ∉ env.createFails)
    (hmm : env.hash env.arResp.2 ≠ env.mdResp.2) :
    ∃ msg st₁, Download env d st = (.error msg, st₁) ∧
      strContains msg (env.hash env.arResp.2) ∧
      strContains msg env.mdResp.2 ∧
      st₁.files.lookup (md5Path d) = st.files.lookup (md5Path d) := by
  have hmsg1 : strContains ("MD5 of downloaded archive (" ++ env.hash env.arResp.2
      ++ ") does not match expected md5 (" ++ env.mdResp.2 ++ ")")
      (env.hash env.arResp.2) :=
    strContains_parts "MD5 of downloaded archive (" (env.hash env.arResp.2)
      (") does not match expected md5 (" ++ env.mdResp.2 ++ ")") _
      (by simp [String.data_append, List.append_assoc])
  have hmsg2 : strContains ("MD5 of downloaded archive (" ++ env.hash env.arResp.2
      ++ ") does not match expected md5 (" ++ env.mdResp.2 ++ ")") env.mdResp.2 :=
    strContains_parts
      ("MD5 of downloaded archive (" ++ env.hash env.arResp.2
        ++ ") does not match expected md5 (") env.mdResp.2 ")" _
      (by simp [String.data_append, List.append_assoc])
  rcases harch : st.files.lookup (archivePath d) with _ | fd0
  · have hda := downloadArchive_nofile env env.mdResp.2 (archivePath d) (st.emit .httpMd)
      harch
    have hfetch := downloadArchiveFetch_mismatch env env.mdResp.2 (archivePath d)
      (st.emit .httpMd) har hcr hmm
    refine ⟨"MD5 of downloaded archive (" ++ env.hash env.arResp.2
        ++ ") does not match expected md5 (" ++ env.mdResp.2 ++ ")",
      ⟨st.files.set (archivePath d) ⟨env.arResp.2, env.now⟩,
        st.events ++ [.httpMd, .httpArchive, .hashArchive]⟩, ?_, hmsg1, hmsg2, ?_⟩
    · simp only [Download, expectedHash_ok env st hmd, hda, hfetch]
      simp [St.emit]
    · simp [FS.lookup_set, fun hh => md5Path_ne_archivePath d hh]
  · have hne := hstale fd0 harch
    have hda : downloadArchive env env.mdResp.2 (archivePath d) (st.emit .httpMd) =
        downloadArchiveFetch env env.mdResp.2 (archivePath d)
          ((st.emit .httpMd).emit .hashArchive) := by
      have hh2 : ¬env.mdResp.2 = env.hash fd0.content := fun h2 => hne h2.symm
      simp [downloadArchive, fileExists, harch, checksumFromFile, hh2]
    have hfetch := downloadArchiveFetch_mismatch env env.mdResp.2 (archivePath d)
      ((st.emit .httpMd).emit .hashArchive) har hcr hmm
    refine ⟨"MD5 of downloaded archive (" ++ env.hash env.arResp.2
        ++ ") does not match expected md5 (" ++ env.mdResp.2 ++ ")",
      ⟨st.files.set (archivePath d) ⟨env.arResp.2, env.now⟩,
        st.events ++ [.httpMd, .hashArchive, .httpArchive, .hashArchive]⟩,
      ?_, hmsg1, hmsg2, ?_⟩
    · simp only [Download, expectedHash_ok env st hmd, hda, hfetch]
      simp [St.emit]
    · simp [FS.lookup_set, fun hh => md5Path_ne_archivePath d hh]

/-- Witness for C1 at the scenario of the spec: expected checksum
deadbeef, downloaded bytes hashing to feedface. -/
theorem C1_witness :
    ∃ msg st₁, Download envC1 dW stEmpty = (.error msg, st₁) ∧
      strContains msg (envC1.hash envC1.arResp.2) ∧
      strContains msg envC1.mdResp.2 ∧
      st₁.files.lookup (md5Path dW) = stEmpty.files.lookup (md5Path dW) :=
  C1_integrity_failure envC1 dW stEmpty rfl rfl
    (fun fd h => by simp [stEmpty, FS.lookup] at h) (by decide) (by decide)

/-- Claim C2 as stated is false: a payload entry whose destination already
matches is skipped AND omitted from the returned descriptor list. Here the
destination dl/GeoLite2-City.csv matches the single payload entry, the
destination bytes stay unchanged, yet Download returns the empty list, not
a list containing the entry. -/
theorem C2_counterexample :
    stC2.files.lookup (dbPath dW eC2) = some ⟨"DATA", 2⟩ ∧
    envC2.hash "DATA" = envC2.hash eC2.content ∧
    (Download envC2 dW stC2).1 = .ok [] ∧
    (Download envC2 dW stC2).2.files.lookup (dbPath dW eC2) = some ⟨"DATA", 2⟩ ∧
    eC2 ∉ ([] : List Entry) := by
  exact ⟨rfl, rfl, rfl, rfl, by simp⟩

/-- Claim C2 (amended): a payload entry whose destination file already has
matching content checksum is skipped — the destination bytes and the whole
state stay unchanged — and the entry is OMITTED from the returned
descriptor list (the walk continues without appending it). -/
theorem C2_skip_omits_entry (env : Env) (d : Downloader) (f : Entry) (st : St)
    (fd : FileData) (hpay : isPayload f = true)
    (hdest : st.files.lookup (dbPath d f) = some fd)
    (hh : env.hash fd.content = env.hash f.content) :
    processEntry env d f st = (.ok none, st) ∧
    ∀ rest dbs, extractLoop env d (f :: rest) dbs st = extractLoop env d rest dbs st := by
  have hpe := processEntry_skip env d f st fd hpay hdest hh
  exact ⟨hpe, fun rest dbs => by simp [extractLoop, hpe]⟩

/-- Witness for the amended C2. -/
theorem C2_witness :
    processEntry envC2 dW eC2 stC2 = (.ok none, stC2) ∧
    ∀ rest dbs, extractLoop envC2 dW (eC2 :: rest) dbs stC2 =
      extractLoop envC2 dW rest dbs stC2 :=
  C2_skip_omits_entry envC2 dW eC2 stC2 ⟨"DATA", 2⟩ (by decide) rfl rfl

/-- Claim C3 as stated is false: with the marker present and equal to the
expected checksum NEW but the archive bytes hashing to OLD, the pipeline
does not treat the archive as valid — it re-hashes it, downloads it again
(an archive GET happens) and overwrites its bytes. -/
theorem C3_counterexample :
    stC3.files.lookup (md5Path dW) = some ⟨"NEW", 1⟩ ∧
    envC3.mdResp.2 = "NEW" ∧
    Event.httpArchive ∈ (Download envC3 dW stC3).2.events ∧
    Event.hashArchive ∈ (Download envC3 dW stC3).2.events ∧
    (Download envC3 dW stC3).2.files.lookup (archivePath dW) = some ⟨"NEW", 0⟩ := by
  exact ⟨rfl, rfl, by decide, by decide, rfl⟩

/-- Claim C3 (amended): the short-circuit that treats the archive as valid
is a fresh recomputation of the archive file checksum compared against the
expected checksum — the archive content IS re-hashed even when the marker
matches, and replacing the marker content by anything does not change the
outcome, because the pipeline never reads the marker. -/
theorem C3_recompute_shortcircuit (env : Env) (d : Downloader) (st : St)
    (md ad : FileData)
    (_hmarker : st.files.lookup (md5Path d) = some md)
    (_hmdeq : md.content = env.mdResp.2)
    (harch : st.files.lookup (archivePath d) = some ad)
    (hh : env.hash ad.content = env.mdResp.2) :
    downloadArchive env env.mdResp.2 (archivePath d) st = (.ok (), st.emit .hashArchive) ∧
    ∀ v, downloadArchive env env.mdResp.2 (archivePath d)
        (st.setFiles (st.files.set (md5Path d) v)) =
      (.ok (), (st.setFiles (st.files.set (md5Path d) v)).emit .hashArchive) := by
  refine ⟨downloadArchive_skip env env.mdResp.2 (archivePath d) st ad harch hh, ?_⟩
  intro v
  have harch2 : (st.setFiles (st.files.set (md5Path d) v)).files.lookup (archivePath d) =
      some ad := by
    have hne : archivePath d ≠ md5Path d := fun hx => md5Path_ne_archivePath d hx.symm
    simp only [St.setFiles_files, FS.lookup_set, if_neg hne]
    exact harch
  exact downloadArchive_skip env env.mdResp.2 (archivePath d) _ ad harch2 hh

/-- Witness for the amended C3. -/
theorem C3_witness :
    downloadArchive envC3 envC3.mdResp.2 (archivePath dW) stC3b =
      (.ok (), stC3b.emit .hashArchive) ∧
    ∀ v, downloadArchive envC3 envC3.mdResp.2 (archivePath dW)
        (stC3b.setFiles (stC3b.files.set (md5Path dW) v)) =
      (.ok (), (stC3b.setFiles (stC3b.files.set (md5Path dW) v)).emit .hashArchive) :=
  C3_recompute_shortcircuit envC3 dW stC3b ⟨"NEW", 1⟩ ⟨"NEW", 1⟩ rfl rfl rfl rfl

/-- Claim C4: a pre-existing archive whose checksum equals the expected
checksum makes the fetcher succeed with zero HTTP download requests and no
change to any file. -/
theorem C4_skip_on_match (env : Env) (expHash : String) (d : Downloader) (st : St)
    (fd : FileData)
    (harch : st.files.lookup (archivePath d) = some fd)
    (hh : env.hash fd.content = expHash) :
    downloadArchive env expHash (archivePath d) st = (.ok (), st.emit .hashArchive) ∧
    (st.emit .hashArchive).files = st.files ∧
    (Event.httpArchive ∈ (st.emit .hashArchive).events →
      Event.httpArchive ∈ st.events) := by
  refine ⟨downloadArchive_skip env expHash (archivePath d) st fd harch hh, rfl, ?_⟩
  intro hmem
  simpa using hmem

/-- Witness for C4. -/
theorem C4_witness :
    downloadArchive envC3 "NEW" (archivePath dW) stC3b = (.ok (), stC3b.emit .hashArchive) ∧
    (stC3b.emit .hashArchive).files = stC3b.files ∧
    (Event.httpArchive ∈ (stC3b.emit .hashArchive).events →
      Event.httpArchive ∈ stC3b.events) :=
  C4_skip_on_match envC3 "NEW" dW stC3b ⟨"NEW", 1⟩ rfl rfl

/-- Claim C5: extraction considers exactly the non-directory entries with
extension .csv or .mmdb; into a fresh destination directory it returns
exactly those entries, in walk order, and all other entries are skipped
silently without error; moreover any successful extraction result
whatsoever is a sublist of the payload entries in walk order, so entries
of other extensions and directory entries never appear in it. -/
theorem C5_extraction_filtering (env : Env) (d : Downloader) (st : St)
    (archive : String) (fd : FileData)
    (harch : st.files.lookup archive = some fd)
    (hfresh : ∀ f ∈ env.parseArchive fd.content, isPayload f = true →
      st.files.lookup (dbPath d f) = none ∧ dbPath d f ∉ env.createFails)
    (hnd : (((env.parseArchive fd.content).filter isPayload).map Entry.name).Nodup) :
    (∃ st', extractArchive env d archive st =
      (.ok ((env.parseArchive fd.content).filter isPayload), st')) ∧
    ∀ dbs' st', extractArchive env d archive st = (.ok dbs', st') →
      List.Sublist dbs' ((env.parseArchive fd.content).filter isPayload) := by
  constructor
  · obtain ⟨st', h⟩ := extractLoop_fresh env d (env.parseArchive fd.content) [] st hfresh hnd
    refine ⟨st', ?_⟩
    simp only [extractArchive, harch]
    simpa using h
  · intro dbs' st' h
    simp only [extractArchive, harch] at h
    obtain ⟨sfx, h1, h2⟩ := extractLoop_ok_sublist env d (env.parseArchive fd.content)
      [] dbs' st st' h
    simpa [h1] using h2

/-- Witness for C5: an archive holding a csv, a directory, an mmdb and a
txt entry yields exactly the csv and the mmdb, in walk order. -/
theorem C5_witness :
    ((∃ st', extractArchive envC5 dW "wd/GeoLite2-City.tar.gz" stC5 =
      (.ok ((envC5.parseArchive (FileData.mk "ARC" 1).content).filter isPayload), st')) ∧
    ∀ dbs' st', extractArchive envC5 dW "wd/GeoLite2-City.tar.gz" stC5 = (.ok dbs', st') →
      List.Sublist dbs' ((envC5.parseArchive (FileData.mk "ARC" 1).content).filter isPayload)) ∧
    (envC5.parseArchive (FileData.mk "ARC" 1).content).filter isPayload = [eC5a, eC5c] :=
  ⟨C5_extraction_filtering envC5 dW stC5 "wd/GeoLite2-City.tar.gz" ⟨"ARC", 1⟩ rfl
    (by decide) (by decide), by decide⟩

/-- Claim C6: a second Download call right after a successful one, with
the remote unchanged, issues no archive GET, rewrites no destination file
and changes no file at all — its final state keeps the same filesystem and
appends only the metadata request and one archive checksum computation to
the trace. -/
theorem C6_idempotent (env : Env) (d : Downloader) (st st₁ : St) (dbs : List Entry)
    (hsep : SepPaths env d) (hnd : NodupNames env)
    (h : Download env d st = (.ok dbs, st₁)) :
    Download env d st₁ = (.ok [], ⟨st₁.files, st₁.events ++ [.httpMd, .hashArchive]⟩) := by
  obtain ⟨hmd, hcf, hmarker, fd, harch, hhash, hdest⟩ :=
    Download_ok_post env d st st₁ dbs hsep hnd h
  have hskip := downloadArchive_skip env env.mdResp.2 (archivePath d) (st₁.emit .httpMd)
    fd harch hhash
  have hset : st₁.files.set (md5Path d) ⟨env.mdResp.2, env.now⟩ = st₁.files :=
    FS.set_self _ _ _ hmarker
  have hcfe : createFile env ((st₁.emit .httpMd).emit .hashArchive) (md5Path d)
      env.mdResp.2 = .ok ⟨st₁.files, st₁.events ++ [.httpMd, .hashArchive]⟩ := by
    simp only [createFile, if_neg hcf]
    simp [St.setFiles, St.emit, hset]
  have hexts : extractArchive env d (archivePath d)
      ⟨st₁.files, st₁.events ++ [.httpMd, .hashArchive]⟩ =
      (.ok [], ⟨st₁.files, st₁.events ++ [.httpMd, .hashArchive]⟩) := by
    simp only [extractArchive]
    rw [show (⟨st₁.files, st₁.events ++ [.httpMd, .hashArchive]⟩ : St).files.lookup
      (archivePath d) = some fd from harch]
    exact extractLoop_allCurrent env d _ [] _ (fun f hf hp => hdest f hf hp)
  simp only [Download, expectedHash_ok env st₁ hmd, hskip, hcfe, hexts]

/-- SepPaths holds for the idempotence witness environment. -/
theorem sepC6 : SepPaths envC6 dW := by
  intro c f hf
  by_cases hc : c = "ARC"
  · have hf2 : f = eC6 := by simpa [envC6, hc] using hf
    subst hf2
    exact ⟨by decide, by decide⟩
  · simp [envC6, hc] at hf

/-- NodupNames holds for the idempotence witness environment. -/
theorem nodupC6 : NodupNames envC6 := by
  intro c
  by_cases hc : c = "ARC"
  · subst hc
    decide
  · simp [envC6, hc]

/-- Witness for C6: the second run after a successful first run returns
the empty descriptor list and changes nothing. -/
theorem C6_witness :
    Download envC6 dW stC6 = (.ok [], ⟨stC6.files, stC6.events ++ [.httpMd, .hashArchive]⟩) :=
  C6_idempotent envC6 dW stEmpty stC6 [eC6] sepC6 nodupC6 rfl

/-- Claim C7 is right about the intent but the code has a bug: on a
non-200 response the error message carries the status code, yet instead of
the response body bytes it embeds the fmt rendering of the unread body
reader, so the body bytes never appear in the message: at status 401 with
body Invalid license key, the message does not contain that body, and the
message is identical for a completely different body; the archive
endpoint at status 500 behaves the same way. -/
theorem C7_status_without_body :
    (∃ st', expectedHash envC7 stEmpty =
      (.error ("Received invalid status code 401: " ++ goFmtBody), st')) ∧
    strContains ("Received invalid status code 401: " ++ goFmtBody) "401" ∧
    ¬strContains ("Received invalid status code 401: " ++ goFmtBody) "Invalid license key" ∧
    (expectedHash envC7 stEmpty).1 = (expectedHash envC7b stEmpty).1 ∧
    (∃ st', downloadArchiveFetch envC7 "x" (archivePath dW) stEmpty =
      (.error ("Received invalid status code 500: " ++ goFmtBody), st')) ∧
    ¬strContains ("Received invalid status code 500: " ++ goFmtBody) "Server error body" := by
  refine ⟨⟨_, rfl⟩, by decide, by decide, rfl, ⟨_, rfl⟩, by decide⟩

/-- Claim C8: after a successful fetch step inside Download — also when
the fetch was skipped because the archive already matched — the checksum
marker holds the expected checksum, whatever happens afterwards and
whatever it held before. -/
theorem C8_marker_written (env : Env) (d : Downloader) (st st₁ : St)
    (r : Except String (List Entry))
    (hmd : env.mdResp.1 = 200)
    (hcf : md5Path d ∉ env.createFails)
    (hsep : SepPaths env d)
    (hda : (downloadArchive env env.mdResp.2 (archivePath d) (st.emit .httpMd)).1 = .ok ())
    (h : Download env d st = (r, st₁)) :
    st₁.files.lookup (md5Path d) = some ⟨env.mdResp.2, env.now⟩ := by
  rcases hda2 : downloadArchive env env.mdResp.2 (archivePath d) (st.emit .httpMd)
    with ⟨r2, st2⟩
  rw [hda2] at hda
  obtain rfl : r2 = .ok () := hda
  simp only [Download, expectedHash_ok env st hmd, hda2] at h
  simp only [createFile, if_neg hcf] at h
  obtain ⟨⟨fd, harch2, hhash⟩, _, _⟩ :=
    downloadArchive_ok_post env env.mdResp.2 (archivePath d) (st.emit .httpMd) st2 hda2
  set st3 : St := st2.setFiles (st2.files.set (md5Path d) ⟨env.mdResp.2, env.now⟩)
    with hst3
  have harch3 : st3.files.lookup (archivePath d) = some fd := by
    rw [hst3]
    have hne : archivePath d ≠ md5Path d := fun hh => md5Path_ne_archivePath d hh.symm
    simp only [St.setFiles_files, FS.lookup_set, if_neg hne]
    exact harch2
  have hmd3 : st3.files.lookup (md5Path d) = some ⟨env.mdResp.2, env.now⟩ := by
    rw [hst3]
    simp [FS.lookup_set]
  simp only [extractArchive, harch3] at h
  have hpmd5 : ∀ f ∈ env.parseArchive fd.content, isPayload f = true →
      md5Path d ≠ dbPath d f :=
    fun f hf _ => fun hh => (hsep fd.content f hf).2 hh.symm
  have hfr := extractLoop_files_frame env d (env.parseArchive fd.content) [] st3
    (md5Path d) hpmd5
  have hst₁ : st₁ = (extractLoop env d (env.parseArchive fd.content) [] st3).2 := by
    rw [h]
  rw [hst₁, hfr, hmd3]

/-- Witness for C8: after the first Download run of the skip-free
scenario, the marker stores the expected checksum ARC. -/
theorem C8_witness :
    (Download envC6 dW stEmpty).2.files.lookup (md5Path dW) =
      some ⟨envC6.mdResp.2, envC6.now⟩ :=
  C8_marker_written envC6 dW stEmpty (Download envC6 dW stEmpty).2
    (Download envC6 dW stEmpty).1 rfl (by decide) sepC6 rfl rfl

/-- Claim C9: when setting the destination modification time fails, the
entry is still extracted and treated as complete — the closure succeeds,
only a warning event is recorded, the destination file keeps the
creation time instead of the entry time, the walk continues with the
descriptor (the entry itself, carrying the entry modification time)
appended to the result. -/
theorem C9_chtimes_best_effort (env : Env) (d : Downloader) (f : Entry) (st : St)
    (hpay : isPayload f = true)
    (hmiss : st.files.lookup (dbPath d f) = none)
    (hcr : dbPath d f ∉ env.createFails)
    (hch : dbPath d f ∈ env.chtimesFails) :
    processEntry env d f st =
      (.ok (some f),
       ⟨st.files.set (dbPath d f) ⟨f.content, env.now⟩,
        st.events ++ [.writeDest (dbPath d f), .chtimesWarn (dbPath d f)]⟩) ∧
    ∀ rest dbs, extractLoop env d (f :: rest) dbs st =
      extractLoop env d rest (dbs ++ [f])
        ⟨st.files.set (dbPath d f) ⟨f.content, env.now⟩,
         st.events ++ [.writeDest (dbPath d f), .chtimesWarn (dbPath d f)]⟩ := by
  have hnoskip : ∀ fd, st.files.lookup (dbPath d f) = some fd →
      env.hash f.content ≠ env.hash fd.content := by
    intro fd hdl
    simp [hmiss] at hdl
  have hpe := processEntry_write_chtimesFail env d f st hpay hnoskip hcr hch
  exact ⟨hpe, fun rest dbs => by simp [extractLoop, hpe]⟩

/-- Witness for C9, with the whole-pipeline success: Download still
returns the descriptor of the entry whose Chtimes failed. -/
theorem C9_witness :
    (processEntry envC9 dW eC6 stEmpty =
      (.ok (some eC6),
       ⟨stEmpty.files.set (dbPath dW eC6) ⟨eC6.content, envC9.now⟩,
        stEmpty.events ++ [.writeDest (dbPath dW eC6), .chtimesWarn (dbPath dW eC6)]⟩) ∧
    ∀ rest dbs, extractLoop envC9 dW (eC6 :: rest) dbs stEmpty =
      extractLoop envC9 dW rest (dbs ++ [eC6])
        ⟨stEmpty.files.set (dbPath dW eC6) ⟨eC6.content, envC9.now⟩,
         stEmpty.events ++ [.writeDest (dbPath dW eC6), .chtimesWarn (dbPath dW eC6)]⟩) ∧
    (Download envC9 dW stEmpty).1 = .ok [eC6] :=
  ⟨C9_chtimes_best_effort envC9 dW eC6 stEmpty (by decide) rfl (by decide) (by decide),
   rfl⟩

/-- Claim C10: when the marker write fails after a successful fetch,
Download returns an error and performs no extraction — no path other than
the archive path changed, no destination write event was recorded, no
descriptors are returned — although a confirmed-valid archive is on
disk. -/
theorem C10_marker_fail_no_extraction (env : Env) (d : Downloader) (st st₂ : St)
    (hmd : env.mdResp.1 = 200)
    (hcf : md5Path d ∈ env.createFails)
    (hda : downloadArchive env env.mdResp.2 (archivePath d) (st.emit .httpMd) =
      (.ok (), st₂)) :
    Download env d st = (.error ("Cannot create MD5 file " ++ md5Path d), st₂) ∧
    (∀ p, p ≠ archivePath d → st₂.files.lookup p = st.files.lookup p) ∧
    (∀ q, Event.writeDest q ∈ st₂.events → Event.writeDest q ∈ st.events) ∧
    ∃ fd, st₂.files.lookup (archivePath d) = some fd ∧
      env.hash fd.content = env.mdResp.2 := by
  obtain ⟨⟨fd, harch, hh⟩, hframe, ⟨tail, hev, htail⟩⟩ :=
    downloadArchive_ok_post env env.mdResp.2 (archivePath d) (st.emit .httpMd) st₂ hda
  refine ⟨?_, ?_, ?_, fd, harch, hh⟩
  · simp only [Download, expectedHash_ok env st hmd, hda, createFile, if_pos hcf]
  · intro p hp
    exact hframe p hp
  · intro q hq
    rw [hev] at hq
    simp only [St.emit_events, List.append_assoc, List.mem_append] at hq
    rcases hq with hq | hq
    · exact hq
    · simp only [List.mem_append, List.mem_singleton] at hq
      rcases hq with hq | hq
      · cases hq
      · exact absurd hq (htail q)

/-- Witness for C10: the unwritable marker path makes Download fail right
after the fetch, with the valid archive on disk and nothing extracted. -/
theorem C10_witness :
    Download envC10 dW stEmpty =
      (.error ("Cannot create MD5 file " ++ md5Path dW),
       (downloadArchive envC10 envC10.mdResp.2 (archivePath dW) (stEmpty.emit .httpMd)).2) ∧
    (∀ p, p ≠ archivePath dW →
      (downloadArchive envC10 envC10.mdResp.2 (archivePath dW)
        (stEmpty.emit .httpMd)).2.files.lookup p = stEmpty.files.lookup p) ∧
    (∀ q, Event.writeDest q ∈ (downloadArchive envC10 envC10.mdResp.2 (archivePath dW)
        (stEmpty.emit .httpMd)).2.events → Event.writeDest q ∈ stEmpty.events) ∧
    ∃ fd, (downloadArchive envC10 envC10.mdResp.2 (archivePath dW)
        (stEmpty.emit .httpMd)).2.files.lookup (archivePath dW) = some fd ∧
      envC10.hash fd.content = envC10.mdResp.2 :=
  C10_marker_fail_no_extraction envC10 dW stEmpty _ rfl (by decide) rfl

end GeoipUpdater
